import Mathlib

/-
Verification of the centinel monetary library (src/centinel/) against its
natural-language specification.

The embedding follows the Python source:
  * Money amounts are modelled as exact rationals (ℚ).  In the source an
    int/float amount is converted through `Decimal(str(amount))`, i.e. the
    exact decimal number Python displays for it, which is a rational; the
    literals appearing in the claims (100.125, 0.85, ...) are all exactly
    representable decimals, so the rational model agrees with the source on
    every input the claims mention.
  * Exceptions become an inductive error type whose constructors mirror the
    Python exception classes; `Except` carries the raised class.
  * The mutable ExchangeRateManager state is passed explicitly; the
    recursive cross-rate lookup in `get_rate` is given a fuel parameter,
    `none` standing for a call that does not return (in the source the
    recursive call re-acquires a non-reentrant lock and would block).
  * Python `==` on Money objects is object identity (`Money` defines no
    `__eq__`), modelled by tagging each allocated object with a fresh id.
-/

namespace Centinel

/-- The four supported currency codes (`Currency` enum, src/centinel/currency.py). -/
inductive Currency where
  | USD
  | EUR
  | GBP
  | JPY
deriving DecidableEq, Repr

/-- The Python exception classes the library raises (src/centinel/exceptions.py plus
builtins): `moneyOverflow` = MoneyOverflowError, `invalidAmount` = InvalidAmountError,
`currencyMismatch` = CurrencyMismatchError, `valueError` = a bare ValueError,
`typeError` = TypeError, `zeroDivision` = ZeroDivisionError. -/
inductive PyErr where
  | moneyOverflow
  | invalidAmount
  | currencyMismatch
  | valueError
  | typeError
  | zeroDivision
deriving DecidableEq, Repr

/-- Membership in the ValueError class hierarchy: CurrencyMismatchError and
InvalidAmountError subclass ValueError, so `except (CurrencyMismatchError, ValueError)`
catches exactly these three; MoneyOverflowError subclasses OverflowError and is not
caught by a ValueError handler. -/
def PyErr.isValueErrorClass : PyErr → Bool
  | .valueError => true
  | .currencyMismatch => true
  | .invalidAmount => true
  | _ => false

/-- Semantics of Python's decimal rounding mode ROUND_HALF_UP when rounding a value to an
integer: nearest integer, ties going away from zero (decimal module documentation:
"Round to nearest with ties going away from zero"). -/
def quantHalfUp (q : ℚ) : ℤ := if q < 0 then -⌊-q + 1/2⌋ else ⌊q + 1/2⌋

/-- `amount.quantize(Decimal('0.01'), rounding=ROUND_HALF_UP)` (core.py line 36): the
nearest multiple of 1/100, ties away from zero. -/
def quantize2 (q : ℚ) : ℚ := (quantHalfUp (q * 100) : ℚ) / 100

/-- Python `int(...)` on a Decimal truncates toward zero (core.py line 39). -/
def int_trunc (q : ℚ) : ℤ := if q < 0 then -⌊-q⌋ else ⌊q⌋

/-- Python's built-in `round(x)` to an integer: nearest integer, ties to even
(used by `Money.__mul__` line 81 and `Money.__truediv__` line 91). -/
def pyRound (q : ℚ) : ℤ :=
  if q - ⌊q⌋ < 1/2 then ⌊q⌋
  else if 1/2 < q - ⌊q⌋ then ⌊q⌋ + 1
  else if ⌊q⌋ % 2 = 0 then ⌊q⌋ else ⌊q⌋ + 1

/-- Round-half-away-from-zero as the spec words it ("rounds to the nearest minor unit
using round-half-away-from-zero"), stated through Mathlib's `round` (which rounds ties
toward +∞) so that it is independent of `quantHalfUp` above. -/
def roundTiesAwayFromZero (q : ℚ) : ℤ := if 0 ≤ q then round q else -(round (-q))

/-- `Money.MAX_VALUE` (core.py line 18). -/
def MAX_VALUE : ℤ := 2147483647

/-- `Money.MIN_VALUE` (core.py line 19). -/
def MIN_VALUE : ℤ := -2147483648

/-- A Money value: `_amount` (the signed count of minor units) and `_currency`
(core.py lines 44-45). -/
structure Money where
  minorUnits : ℤ
  currency : Currency
deriving DecidableEq, Repr

/-- `Money.__init__` (core.py lines 21-45) on a numeric amount: quantize to 2 decimal
places with ROUND_HALF_UP, scale by 100 and truncate to an int, range-check against the
4-byte signed limits, raising MoneyOverflowError when outside. -/
def Money.mk' (amount : ℚ) (c : Currency) : Except PyErr Money :=
  if MIN_VALUE ≤ int_trunc (quantize2 amount * 100) ∧
      int_trunc (quantize2 amount * 100) ≤ MAX_VALUE then
    .ok ⟨int_trunc (quantize2 amount * 100), c⟩
  else .error .moneyOverflow

/-- The `amount` property (core.py lines 47-50): `float(Decimal(self._amount) / 100)`. -/
def Money.amount (m : Money) : ℚ := (m.minorUnits : ℚ) / 100

/-- `Money.__add__` (core.py lines 64-69): validate currencies (a mismatch raises a bare
ValueError, core.py line 62), add minor units, range-check, then reconstruct through
`Money(result/100, currency)`. -/
def Money.add (a b : Money) : Except PyErr Money :=
  if a.currency ≠ b.currency then .error .valueError
  else if MIN_VALUE ≤ a.minorUnits + b.minorUnits ∧
      a.minorUnits + b.minorUnits ≤ MAX_VALUE then
    Money.mk' (((a.minorUnits + b.minorUnits : ℤ) : ℚ) / 100) a.currency
  else .error .moneyOverflow

/-- `Money.__sub__` (core.py lines 71-76). -/
def Money.sub (a b : Money) : Except PyErr Money :=
  if a.currency ≠ b.currency then .error .valueError
  else if MIN_VALUE ≤ a.minorUnits - b.minorUnits ∧
      a.minorUnits - b.minorUnits ≤ MAX_VALUE then
    Money.mk' (((a.minorUnits - b.minorUnits : ℤ) : ℚ) / 100) a.currency
  else .error .moneyOverflow

/-- `Money.__mul__` (core.py lines 78-84): `round(self._amount * factor)` with Python's
built-in round (ties to even), range-check, then reconstruct through the constructor. -/
def Money.mul (a : Money) (factor : ℚ) : Except PyErr Money :=
  if MIN_VALUE ≤ pyRound ((a.minorUnits : ℚ) * factor) ∧
      pyRound ((a.minorUnits : ℚ) * factor) ≤ MAX_VALUE then
    Money.mk' ((pyRound ((a.minorUnits : ℚ) * factor) : ℚ) / 100) a.currency
  else .error .moneyOverflow

/-- `Money.__truediv__` (core.py lines 86-92): raise ZeroDivisionError on a zero factor,
otherwise `round(self._amount / factor)` (ties to even) and reconstruct; unlike `__mul__`
there is no explicit range check before the constructor (the constructor checks). -/
def Money.div (a : Money) (factor : ℚ) : Except PyErr Money :=
  if factor = 0 then .error .zeroDivision
  else Money.mk' ((pyRound ((a.minorUnits : ℚ) / factor) : ℚ) / 100) a.currency

/-- The live rate table `_rates`: ordered currency pair to rate. -/
def RatesMap : Type := Currency × Currency → Option ℚ

/-- The seed table populated by `ExchangeRateManager.__init__`
(currency.py lines 18-31). -/
def initRates : RatesMap := fun p =>
  match p with
  | (.USD, .EUR) => some 0.85
  | (.USD, .GBP) => some 0.73
  | (.USD, .JPY) => some 110.0
  | (.EUR, .USD) => some 1.18
  | (.EUR, .GBP) => some 0.86
  | (.EUR, .JPY) => some 129.5
  | (.GBP, .USD) => some 1.37
  | (.GBP, .EUR) => some 1.16
  | (.GBP, .JPY) => some 150.7
  | (.JPY, .USD) => some 0.0091
  | (.JPY, .EUR) => some 0.0077
  | (.JPY, .GBP) => some 0.0066
  | _ => none

/-- `ExchangeRateManager.get_rate` (currency.py lines 34-56), with an explicit fuel
bound on the recursion; `none` models a recursive call that does not return (in the
source any recursive descent re-acquires the manager's non-reentrant lock and blocks,
and even ignoring the lock an unresolvable leg recurses forever).  The `try`/`except`
only catches CurrencyMismatchError, so any other raised class propagates. -/
def get_rate : Nat → RatesMap → Currency → Currency → Option (Except PyErr ℚ)
  | 0, _, from_c, to_c => if from_c = to_c then some (.ok 1) else none
  | Nat.succ n, rates, from_c, to_c =>
    if from_c = to_c then some (.ok 1)
    else
      match rates (from_c, to_c) with
      | some r => some (.ok r)
      | none =>
        let usd : Option (Except PyErr ℚ) :=
          match get_rate n rates from_c Currency.USD with
          | none => none
          | some (.error e) => some (.error e)
          | some (.ok r1) =>
            match get_rate n rates Currency.USD to_c with
            | none => none
            | some (.error e) => some (.error e)
            | some (.ok r2) => some (.ok (r1 * r2))
        match usd with
        | some (.error PyErr.currencyMismatch) =>
          let eur : Option (Except PyErr ℚ) :=
            match get_rate n rates from_c Currency.EUR with
            | none => none
            | some (.error e) => some (.error e)
            | some (.ok r1) =>
              match get_rate n rates Currency.EUR to_c with
              | none => none
              | some (.error e) => some (.error e)
              | some (.ok r2) => some (.ok (r1 * r2))
          match eur with
          | some (.error PyErr.currencyMismatch) => some (.error PyErr.currencyMismatch)
          | other => other
        | other => other

/-- `ExchangeRateManager.update_rate` (currency.py lines 58-66): reject a non-positive
rate with ValueError, otherwise store the forward rate and then overwrite the inverse
pair with `1.0 / rate`. -/
def update_rate (rates : RatesMap) (from_c to_c : Currency) (r : ℚ) :
    Except PyErr RatesMap :=
  if r ≤ 0 then .error .valueError
  else .ok (fun p =>
    if p = (to_c, from_c) then some (1 / r)
    else if p = (from_c, to_c) then some r
    else rates p)

/-- The `_historical_rates` table: a calendar date (abstracted to a token) to a rate
table for that date. -/
def HistMap : Type := Nat → Option (Currency × Currency → Option ℚ)

/-- `ExchangeRateManager.get_historical_rate` (currency.py lines 68-82): ValueError when
the date has no bucket, CurrencyMismatchError when the ordered pair is absent for that
date, otherwise the stored rate; no cross-rate derivation. -/
def get_historical_rate (hist : HistMap) (from_c to_c : Currency) (d : Nat) :
    Except PyErr ℚ :=
  match hist d with
  | none => .error .valueError
  | some rs =>
    match rs (from_c, to_c) with
    | none => .error .currencyMismatch
    | some r => .ok r

/-- The manager's full state: live rates plus historical buckets. -/
structure MgrState where
  rates : RatesMap
  hist : HistMap

/-- The freshly constructed manager: seed rates, no historical buckets. -/
def initState : MgrState := ⟨initRates, fun _ => none⟩

/-- `convert` (currency.py lines 100-126): same currency returns the argument itself;
otherwise resolve a rate through `get_historical_rate` (when a date is given, dates are
always truthy) or `get_rate`, re-raising anything in the caught
`(CurrencyMismatchError, ValueError)` hierarchy as CurrencyMismatchError; finally build
`Money(amount.amount * rate, target_currency)`. -/
def convert (fuel : Nat) (s : MgrState) (m : Money) (target : Currency)
    (d : Option Nat) : Option (Except PyErr Money) :=
  if m.currency = target then some (.ok m)
  else
    match (match d with
           | some dd => some (get_historical_rate s.hist m.currency target dd)
           | none => get_rate fuel s.rates m.currency target) with
    | none => none
    | some (.error e) =>
      if e.isValueErrorClass then some (.error .currencyMismatch)
      else some (.error e)
    | some (.ok r) => some (Money.mk' (m.amount * r) target)

/-- A Money object as Python sees it: the value plus the object's identity.  `Money`
defines no `__eq__`, so `==` between Money objects is `object.__eq__`, i.e. identity. -/
structure MoneyObj where
  oid : Nat
  val : Money
deriving DecidableEq, Repr

/-- Python `==` between two Money objects: object identity (no `__eq__` in core.py). -/
def pyEq (a b : MoneyObj) : Bool := a.oid == b.oid

/-- Allocate a Money through the constructor; `ctr` is the next fresh object id. -/
def constructObj (ctr : Nat) (amount : ℚ) (c : Currency) :
    Except PyErr (MoneyObj × Nat) :=
  (Money.mk' amount c).map (fun m => (⟨ctr, m⟩, ctr + 1))

/-- `a + b` at the object level: the result is a freshly allocated object. -/
def addObj (ctr : Nat) (a b : MoneyObj) : Except PyErr (MoneyObj × Nat) :=
  (Money.add a.val b.val).map (fun m => (⟨ctr, m⟩, ctr + 1))

/-- `a - b` at the object level: the result is a freshly allocated object. -/
def subObj (ctr : Nat) (a b : MoneyObj) : Except PyErr (MoneyObj × Nat) :=
  (Money.sub a.val b.val).map (fun m => (⟨ctr, m⟩, ctr + 1))

/-- One leg of the cascade as the claim words it: a rate "resolves" for a pair when the
currencies coincide (rate 1) or a direct entry is stored. -/
def legRate (rates : RatesMap) (a b : Currency) : Option ℚ :=
  if a = b then some 1 else rates (a, b)

/-- The resolution policy exactly as claim C4 words it: 1.0 for equal currencies, then
the direct rate, then a single USD hop, then a single EUR hop, else
CurrencyMismatchError. -/
def claimRate (rates : RatesMap) (f t : Currency) : Except PyErr ℚ :=
  if f = t then .ok 1
  else
    match rates (f, t) with
    | some r => .ok r
    | none =>
      match legRate rates f Currency.USD, legRate rates Currency.USD t with
      | some r1, some r2 => .ok (r1 * r2)
      | _, _ =>
        match legRate rates f Currency.EUR, legRate rates Currency.EUR t with
        | some r1, some r2 => .ok (r1 * r2)
        | _, _ => .error .currencyMismatch

/-- `get_rate` restricted to the identity and direct-lookup branches (no pivot
fallback). -/
def get_rate_direct (rates : RatesMap) (f t : Currency) : Except PyErr ℚ :=
  if f = t then .ok 1
  else
    match rates (f, t) with
    | some r => .ok r
    | none => .error .currencyMismatch

/-- The live-rate tables an ExchangeRateManager can actually be in: the seed table,
closed under successful `update_rate` calls (no operation removes entries). -/
inductive ReachableRates : RatesMap → Prop where
  | init : ReachableRates initRates
  | update (s s' : RatesMap) (f t : Currency) (r : ℚ) :
      ReachableRates s → update_rate s f t r = .ok s' → ReachableRates s'

theorem quantHalfUp_intCast (n : ℤ) : quantHalfUp (n : ℚ) = n := by
  unfold quantHalfUp
  split
  · have h1 : -(n : ℚ) + 1/2 = ((-n : ℤ) : ℚ) + 1/2 := by rw [Int.cast_neg]
    rw [h1, Int.floor_int_add]
    norm_num
  · rw [Int.floor_int_add]
    norm_num

theorem int_trunc_intCast (n : ℤ) : int_trunc (n : ℚ) = n := by
  unfold int_trunc
  split
  · rw [← Int.cast_neg, Int.floor_intCast]; ring
  · rw [Int.floor_intCast]

theorem cents_eq (a : ℚ) : int_trunc (quantize2 a * 100) = quantHalfUp (a * 100) := by
  unfold quantize2
  rw [div_mul_cancel₀ _ (by norm_num : (100 : ℚ) ≠ 0), int_trunc_intCast]

/-- The constructor in closed form: the minor-unit count it stores is exactly the
ROUND_HALF_UP quantization of `100 * amount`. -/
theorem mk'_eq (a : ℚ) (c : Currency) :
    Money.mk' a c =
      if MIN_VALUE ≤ quantHalfUp (a * 100) ∧ quantHalfUp (a * 100) ≤ MAX_VALUE then
        .ok ⟨quantHalfUp (a * 100), c⟩
      else .error .moneyOverflow := by
  unfold Money.mk'
  rw [cents_eq]

theorem quantHalfUp_eq_of_nonneg (q : ℚ) (n : ℤ) (h0 : 0 ≤ q)
    (hlo : (n : ℚ) ≤ q + 1/2) (hhi : q + 1/2 < n + 1) : quantHalfUp q = n := by
  unfold quantHalfUp
  rw [if_neg (not_lt.2 h0)]
  exact Int.floor_eq_iff.2 ⟨hlo, by exact_mod_cast hhi⟩

/-- Reconstruction through `Money(n/100, c)` is exact: an integer count of minor units
divided by 100 quantizes back to itself. -/
theorem mk'_intCast_div100 (n : ℤ) (c : Currency) :
    Money.mk' ((n : ℚ) / 100) c =
      if MIN_VALUE ≤ n ∧ n ≤ MAX_VALUE then .ok ⟨n, c⟩ else .error .moneyOverflow := by
  rw [mk'_eq, div_mul_cancel₀ _ (by norm_num : (100 : ℚ) ≠ 0), quantHalfUp_intCast]

theorem pyRound_tie_even (q : ℚ) (n : ℤ) (hf : ⌊q⌋ = n) (h : q - n = 1/2)
    (he : n % 2 = 0) : pyRound q = n := by
  unfold pyRound
  rw [hf, h]
  norm_num [he]

/-- `quantHalfUp` and the spec-worded rounding agree everywhere. -/
theorem quantHalfUp_eq_roundTiesAwayFromZero (q : ℚ) :
    quantHalfUp q = roundTiesAwayFromZero q := by
  unfold quantHalfUp roundTiesAwayFromZero
  rcases lt_or_le q 0 with h | h
  · rw [if_pos h, if_neg (not_le.2 h), round_eq]
  · rw [if_neg (not_lt.2 h), if_pos h, round_eq]

theorem pyRound_intCast (n : ℤ) : pyRound (n : ℚ) = n := by
  unfold pyRound
  rw [Int.floor_intCast]
  norm_num

/-- Evaluate the constructor on an amount that is an exact multiple of 1/100. -/
theorem mk'_eval (a : ℚ) (n : ℤ) (h : a * 100 = (n : ℚ)) (h1 : MIN_VALUE ≤ n)
    (h2 : n ≤ MAX_VALUE) (c : Currency) : Money.mk' a c = .ok ⟨n, c⟩ := by
  rw [mk'_eq, h, quantHalfUp_intCast, if_pos ⟨h1, h2⟩]

theorem add_eval (a b : Money) (hc : a.currency = b.currency)
    (h1 : MIN_VALUE ≤ a.minorUnits + b.minorUnits)
    (h2 : a.minorUnits + b.minorUnits ≤ MAX_VALUE) :
    Money.add a b = .ok ⟨a.minorUnits + b.minorUnits, a.currency⟩ := by
  unfold Money.add
  rw [if_neg (by simp [hc]), if_pos ⟨h1, h2⟩, mk'_intCast_div100, if_pos ⟨h1, h2⟩]

theorem sub_eval (a b : Money) (hc : a.currency = b.currency)
    (h1 : MIN_VALUE ≤ a.minorUnits - b.minorUnits)
    (h2 : a.minorUnits - b.minorUnits ≤ MAX_VALUE) :
    Money.sub a b = .ok ⟨a.minorUnits - b.minorUnits, a.currency⟩ := by
  unfold Money.sub
  rw [if_neg (by simp [hc]), if_pos ⟨h1, h2⟩, mk'_intCast_div100, if_pos ⟨h1, h2⟩]

theorem mul_eval (a : Money) (s : ℚ) (n : ℤ)
    (hp : pyRound ((a.minorUnits : ℚ) * s) = n)
    (h1 : MIN_VALUE ≤ n) (h2 : n ≤ MAX_VALUE) :
    Money.mul a s = .ok ⟨n, a.currency⟩ := by
  unfold Money.mul
  rw [hp, if_pos ⟨h1, h2⟩, mk'_intCast_div100, if_pos ⟨h1, h2⟩]

theorem add_ok_inv (a b s : Money) (h : Money.add a b = .ok s) :
    s.minorUnits = a.minorUnits + b.minorUnits ∧ s.currency = a.currency := by
  unfold Money.add at h
  by_cases hc : a.currency ≠ b.currency
  · rw [if_pos hc] at h; exact absurd h (by simp)
  · rw [if_neg hc] at h
    by_cases hr : MIN_VALUE ≤ a.minorUnits + b.minorUnits ∧
        a.minorUnits + b.minorUnits ≤ MAX_VALUE
    · rw [if_pos hr, mk'_intCast_div100, if_pos hr] at h
      cases h
      exact ⟨rfl, rfl⟩
    · rw [if_neg hr] at h; exact absurd h (by simp)

theorem sub_ok_inv (a b s : Money) (h : Money.sub a b = .ok s) :
    s.minorUnits = a.minorUnits - b.minorUnits ∧ s.currency = a.currency := by
  unfold Money.sub at h
  by_cases hc : a.currency ≠ b.currency
  · rw [if_pos hc] at h; exact absurd h (by simp)
  · rw [if_neg hc] at h
    by_cases hr : MIN_VALUE ≤ a.minorUnits - b.minorUnits ∧
        a.minorUnits - b.minorUnits ≤ MAX_VALUE
    · rw [if_pos hr, mk'_intCast_div100, if_pos hr] at h
      cases h
      exact ⟨rfl, rfl⟩
    · rw [if_neg hr] at h; exact absurd h (by simp)

theorem constructObj_ok (k : Nat) (a : ℚ) (c : Currency) (o : MoneyObj) (k' : Nat)
    (h : constructObj k a c = .ok (o, k')) : o.oid = k ∧ k' = k + 1 := by
  unfold constructObj at h
  cases hm : Money.mk' a c with
  | error e => rw [hm] at h; exact absurd h (by simp [Except.map])
  | ok m =>
    rw [hm] at h
    simp only [Except.map] at h
    cases h
    exact ⟨rfl, rfl⟩

theorem constructObj_eval (k : Nat) (a : ℚ) (n : ℤ) (c : Currency)
    (h : a * 100 = (n : ℚ)) (h1 : MIN_VALUE ≤ n) (h2 : n ≤ MAX_VALUE) :
    constructObj k a c = .ok (⟨k, ⟨n, c⟩⟩, k + 1) := by
  unfold constructObj
  rw [mk'_eval a n h h1 h2]
  rfl

theorem update_rate_ok_inv (s : RatesMap) (f t : Currency) (r : ℚ) (s' : RatesMap)
    (h : update_rate s f t r = .ok s') :
    ¬r ≤ 0 ∧ s' = fun p =>
      if p = (t, f) then some (1 / r)
      else if p = (f, t) then some r
      else s p := by
  unfold update_rate at h
  by_cases hr : r ≤ 0
  · rw [if_pos hr] at h; exact absurd h (by simp)
  · rw [if_neg hr] at h
    cases h
    exact ⟨hr, rfl⟩

/-- In every reachable live-rate table, every ordered pair of distinct currencies has a
direct entry: the seed provides all 12 pairs and `update_rate` only adds or overwrites. -/
theorem reachable_total (s : RatesMap) (h : ReachableRates s) :
    ∀ a b : Currency, a ≠ b → ∃ r, s (a, b) = some r := by
  induction h with
  | init =>
    intro a b hab
    cases a <;> cases b <;>
      first
        | exact absurd rfl hab
        | exact ⟨_, rfl⟩
  | update s s' f t r _ hupd ih =>
    obtain ⟨-, hs'⟩ := update_rate_ok_inv s f t r s' hupd
    intro a b hab
    subst hs'
    by_cases h1 : (a, b) = (t, f)
    · exact ⟨1 / r, by simp only [if_pos h1]⟩
    · by_cases h2 : (a, b) = (f, t)
      · exact ⟨r, by simp only [if_neg h1, if_pos h2]⟩
      · obtain ⟨q, hq⟩ := ih a b hab
        exact ⟨q, by simp only [if_neg h1, if_neg h2]; exact hq⟩

theorem hist_err_class (hist : HistMap) (f t : Currency) (d : Nat) (e : PyErr)
    (h : get_historical_rate hist f t d = .error e) : e.isValueErrorClass = true := by
  unfold get_historical_rate at h
  split at h
  · cases h; rfl
  · split at h
    · cases h; rfl
    · exact absurd h (by simp)

/-- C1: Money construction rounds the amount to 2 decimal places with
round-half-away-from-zero and scales by 100: every successfully constructed Money
stores exactly `roundTiesAwayFromZero (100 * amount)` minor units in the requested
currency, and concretely Construct(100.125, USD) stores 10013 minor units with
Amount() = 100.13. -/
theorem c1_construction_rounds_half_away_from_zero :
    (∀ (a : ℚ) (c : Currency) (m : Money), Money.mk' a c = .ok m →
      m.minorUnits = roundTiesAwayFromZero (100 * a) ∧ m.currency = c) ∧
    Money.mk' (100.125 : ℚ) Currency.USD = .ok ⟨10013, Currency.USD⟩ ∧
    Money.amount ⟨10013, Currency.USD⟩ = (100.13 : ℚ) := by
  refine ⟨?_, ?_, ?_⟩
  · intro a c m h
    rw [mk'_eq] at h
    by_cases hr : MIN_VALUE ≤ quantHalfUp (a * 100) ∧ quantHalfUp (a * 100) ≤ MAX_VALUE
    · rw [if_pos hr] at h
      cases h
      refine ⟨?_, rfl⟩
      show quantHalfUp (a * 100) = _
      rw [quantHalfUp_eq_roundTiesAwayFromZero, mul_comm]
    · rw [if_neg hr] at h
      exact absurd h (by simp)
  · rw [mk'_eq, quantHalfUp_eq_of_nonneg ((100.125 : ℚ) * 100) 10013 (by norm_num)
      (by norm_num) (by norm_num)]
    norm_num [MIN_VALUE, MAX_VALUE]
  · norm_num [Money.amount]

theorem c1_witness :
    (⟨10013, Currency.USD⟩ : Money).minorUnits =
      roundTiesAwayFromZero (100 * (100.125 : ℚ)) ∧
    (⟨10013, Currency.USD⟩ : Money).currency = Currency.USD :=
  c1_construction_rounds_half_away_from_zero.1 (100.125 : ℚ) Currency.USD
    ⟨10013, Currency.USD⟩ c1_construction_rounds_half_away_from_zero.2.1

/-- C6 (code bug): adding or subtracting Money values of different currencies raises a
bare ValueError ("Cannot operate on different currencies", core.py line 62), not the
CurrencyMismatchError class that exceptions.py documents for operations between
different currencies, so a handler for CurrencyMismatchError does not catch it;
evaluated at Construct(1, USD) + Construct(1, EUR). -/
theorem c6_mismatched_add_raises_bare_value_error :
    Money.mk' (1 : ℚ) Currency.USD = .ok ⟨100, Currency.USD⟩ ∧
    Money.mk' (1 : ℚ) Currency.EUR = .ok ⟨100, Currency.EUR⟩ ∧
    Money.add ⟨100, Currency.USD⟩ ⟨100, Currency.EUR⟩ = .error .valueError ∧
    Money.sub ⟨100, Currency.USD⟩ ⟨100, Currency.EUR⟩ = .error .valueError ∧
    PyErr.valueError ≠ PyErr.currencyMismatch ∧
    PyErr.valueError.isValueErrorClass = true := by
  refine ⟨?_, ?_, rfl, rfl, by decide, rfl⟩
  · exact mk'_eval 1 100 (by norm_num) (by decide) (by decide) Currency.USD
  · exact mk'_eval 1 100 (by norm_num) (by decide) (by decide) Currency.EUR

/-- C7: construction fails with MoneyOverflowError exactly when the rounded minor-unit
count falls outside [MIN_VALUE, MAX_VALUE]; Construct(21474836.47, USD) succeeds with
exactly MAX_VALUE minor units while Construct(21474836.48, USD) overflows; and
addition, subtraction and multiplication fail with MoneyOverflowError rather than
wrapping or clamping whenever their exact minor-unit result leaves the range. -/
theorem c7_overflow_boundary :
    (∀ (a : ℚ) (c : Currency),
      Money.mk' a c = .error .moneyOverflow ↔
        ¬(MIN_VALUE ≤ quantHalfUp (a * 100) ∧ quantHalfUp (a * 100) ≤ MAX_VALUE)) ∧
    Money.mk' (21474836.47 : ℚ) Currency.USD = .ok ⟨2147483647, Currency.USD⟩ ∧
    (2147483647 : ℤ) = MAX_VALUE ∧
    Money.mk' (21474836.48 : ℚ) Currency.USD = .error .moneyOverflow ∧
    (∀ a b : Money, a.currency = b.currency →
      ¬(MIN_VALUE ≤ a.minorUnits + b.minorUnits ∧ a.minorUnits + b.minorUnits ≤ MAX_VALUE) →
      Money.add a b = .error .moneyOverflow) ∧
    (∀ a b : Money, a.currency = b.currency →
      ¬(MIN_VALUE ≤ a.minorUnits - b.minorUnits ∧ a.minorUnits - b.minorUnits ≤ MAX_VALUE) →
      Money.sub a b = .error .moneyOverflow) ∧
    (∀ (a : Money) (s : ℚ),
      ¬(MIN_VALUE ≤ pyRound ((a.minorUnits : ℚ) * s) ∧
        pyRound ((a.minorUnits : ℚ) * s) ≤ MAX_VALUE) →
      Money.mul a s = .error .moneyOverflow) := by
  refine ⟨?_, ?_, rfl, ?_, ?_, ?_, ?_⟩
  · intro a c
    rw [mk'_eq]
    constructor
    · intro h
      by_contra hr
      rw [if_pos hr] at h
      exact absurd h (by simp)
    · intro hr
      rw [if_neg hr]
  · rw [mk'_eq, quantHalfUp_eq_of_nonneg ((21474836.47 : ℚ) * 100) 2147483647
      (by norm_num) (by norm_num) (by norm_num)]
    norm_num [MIN_VALUE, MAX_VALUE]
  · rw [mk'_eq, quantHalfUp_eq_of_nonneg ((21474836.48 : ℚ) * 100) 2147483648
      (by norm_num) (by norm_num) (by norm_num)]
    norm_num [MIN_VALUE, MAX_VALUE]
  · intro a b hc hr
    unfold Money.add
    rw [if_neg (by simp [hc]), if_neg hr]
  · intro a b hc hr
    unfold Money.sub
    rw [if_neg (by simp [hc]), if_neg hr]
  · intro a s hr
    unfold Money.mul
    rw [if_neg hr]

theorem c7_witness :
    Money.add ⟨2147483647, Currency.USD⟩ ⟨1, Currency.USD⟩ = .error .moneyOverflow :=
  c7_overflow_boundary.2.2.2.2.1 ⟨2147483647, Currency.USD⟩ ⟨1, Currency.USD⟩ rfl
    (by decide)

theorem get_rate_self (fuel : Nat) (rates : RatesMap) (c : Currency) :
    get_rate fuel rates c c = some (.ok 1) := by
  cases fuel <;> simp [get_rate]

theorem get_rate_direct_hit (n : Nat) (rates : RatesMap) (f t : Currency) (r : ℚ)
    (hft : f ≠ t) (h : rates (f, t) = some r) :
    get_rate (n + 1) rates f t = some (.ok r) := by
  simp only [get_rate]
  rw [if_neg hft, h]

theorem mul_ok_inv (a : Money) (s : ℚ) (r : Money) (h : Money.mul a s = .ok r) :
    r.minorUnits = pyRound ((a.minorUnits : ℚ) * s) ∧ r.currency = a.currency := by
  unfold Money.mul at h
  by_cases hr : MIN_VALUE ≤ pyRound ((a.minorUnits : ℚ) * s) ∧
      pyRound ((a.minorUnits : ℚ) * s) ≤ MAX_VALUE
  · rw [if_pos hr, mk'_intCast_div100, if_pos hr] at h
    cases h
    exact ⟨rfl, rfl⟩
  · rw [if_neg hr] at h
    exact absurd h (by simp)

/-- Python's round is the nearest integer, with a tie always resolved to the even
neighbour. -/
theorem pyRound_is_nearest_ties_even (q : ℚ) :
    |q - pyRound q| ≤ 1/2 ∧ (|q - pyRound q| = 1/2 → pyRound q % 2 = 0) := by
  have hf1 : (⌊q⌋ : ℚ) ≤ q := Int.floor_le q
  have hf2 : q < ⌊q⌋ + 1 := Int.lt_floor_add_one q
  unfold pyRound
  split_ifs with h1 h2 h3
  · refine ⟨by rw [abs_of_nonneg (by linarith)]; linarith, ?_⟩
    intro habs
    rw [abs_of_nonneg (by linarith)] at habs
    exact absurd habs (by intro he; rw [he] at h1; exact lt_irrefl _ h1)
  · push_cast
    refine ⟨by rw [abs_of_nonpos (by linarith)]; linarith, ?_⟩
    intro habs
    rw [abs_of_nonpos (by linarith)] at habs
    exact absurd habs (by intro he; nlinarith)
  · have heq : q - ⌊q⌋ = 1/2 := le_antisymm (not_lt.1 h2) (not_lt.1 h1)
    exact ⟨by rw [abs_of_nonneg (by linarith)]; linarith, fun _ => h3⟩
  · have heq : q - ⌊q⌋ = 1/2 := le_antisymm (not_lt.1 h2) (not_lt.1 h1)
    push_cast
    refine ⟨by rw [abs_of_nonpos (by linarith)]; linarith, fun _ => ?_⟩
    omega

/-- C2 counterexample: Python's built-in round used by Multiply and Divide is
ties-to-even, not ties-away-from-zero: with one minor unit and scalar 1/2 (values on
which Python float arithmetic is exact) the code rounds 0.5 down to 0 minor units,
while the claimed half-away-from-zero rounding yields 1. -/
theorem c2_counterexample :
    Money.mk' (0.01 : ℚ) Currency.USD = .ok ⟨1, Currency.USD⟩ ∧
    Money.mul ⟨1, Currency.USD⟩ (1/2) = .ok ⟨0, Currency.USD⟩ ∧
    Money.div ⟨1, Currency.USD⟩ 2 = .ok ⟨0, Currency.USD⟩ ∧
    roundTiesAwayFromZero (((⟨1, Currency.USD⟩ : Money).minorUnits : ℚ) * (1/2)) = 1 ∧
    (0 : ℤ) ≠ 1 := by
  refine ⟨mk'_eval (0.01 : ℚ) 1 (by norm_num) (by decide) (by decide) Currency.USD,
    ?_, ?_, ?_, by decide⟩
  · exact mul_eval ⟨1, Currency.USD⟩ (1/2) 0
      (by dsimp only; rw [pyRound_tie_even (((1 : ℤ) : ℚ) * (1/2)) 0 (by norm_num)
        (by norm_num) (by decide)]) (by decide) (by decide)
  · unfold Money.div
    rw [if_neg (by norm_num : ¬(2 : ℚ) = 0)]
    dsimp only
    rw [pyRound_tie_even (((1 : ℤ) : ℚ) / 2) 0 (by norm_num) (by norm_num) (by decide),
      mk'_intCast_div100]
    norm_num [MIN_VALUE, MAX_VALUE]
  · dsimp only
    norm_num [roundTiesAwayFromZero, round_eq]

/-- C2 (amended): Multiply rounds minor_units * scalar to the nearest integer with
ties to even (Python's built-in round — banker's rounding, not half-away-from-zero),
then range-checks, then reconstructs through the 2-decimal construction path; Divide
fails with ZeroDivisionError on a zero scalar and otherwise rounds
minor_units / scalar with the same ties-to-even rule before reconstructing. -/
theorem c2_mul_div_round_half_to_even :
    (∀ (m : Money) (s : ℚ) (r : Money), Money.mul m s = .ok r →
      r.minorUnits = pyRound ((m.minorUnits : ℚ) * s) ∧ r.currency = m.currency) ∧
    (∀ (m : Money) (s : ℚ),
      ¬(MIN_VALUE ≤ pyRound ((m.minorUnits : ℚ) * s) ∧
        pyRound ((m.minorUnits : ℚ) * s) ≤ MAX_VALUE) →
      Money.mul m s = .error .moneyOverflow) ∧
    (∀ m : Money, Money.div m 0 = .error .zeroDivision) ∧
    (∀ (m : Money) (s : ℚ) (r : Money), s ≠ 0 → Money.div m s = .ok r →
      r.minorUnits = pyRound ((m.minorUnits : ℚ) / s) ∧ r.currency = m.currency) ∧
    (∀ q : ℚ, |q - pyRound q| ≤ 1/2 ∧ (|q - pyRound q| = 1/2 → pyRound q % 2 = 0)) := by
  refine ⟨fun m s r h => mul_ok_inv m s r h, ?_, ?_, ?_, pyRound_is_nearest_ties_even⟩
  · intro m s hr
    unfold Money.mul
    rw [if_neg hr]
  · intro m
    unfold Money.div
    rw [if_pos rfl]
  · intro m s r hs h
    unfold Money.div at h
    rw [if_neg hs, mk'_intCast_div100] at h
    by_cases hr : MIN_VALUE ≤ pyRound ((m.minorUnits : ℚ) / s) ∧
        pyRound ((m.minorUnits : ℚ) / s) ≤ MAX_VALUE
    · rw [if_pos hr] at h
      cases h
      exact ⟨rfl, rfl⟩
    · rw [if_neg hr] at h
      exact absurd h (by simp)

theorem c2_witness :
    Money.mul ⟨100, Currency.USD⟩ (2 : ℚ) = .ok ⟨200, Currency.USD⟩ ∧
    (⟨200, Currency.USD⟩ : Money).minorUnits =
      pyRound (((⟨100, Currency.USD⟩ : Money).minorUnits : ℚ) * 2) ∧
    (⟨200, Currency.USD⟩ : Money).currency = (⟨100, Currency.USD⟩ : Money).currency := by
  have hp : pyRound (((⟨100, Currency.USD⟩ : Money).minorUnits : ℚ) * 2) = 200 := by
    dsimp only
    rw [show ((100 : ℤ) : ℚ) * 2 = ((200 : ℤ) : ℚ) by norm_num, pyRound_intCast]
  have hmul : Money.mul ⟨100, Currency.USD⟩ (2 : ℚ) = .ok ⟨200, Currency.USD⟩ :=
    mul_eval ⟨100, Currency.USD⟩ 2 200 hp (by decide) (by decide)
  exact ⟨hmul, (c2_mul_div_round_half_to_even.1 ⟨100, Currency.USD⟩ 2
    ⟨200, Currency.USD⟩ hmul).1, (c2_mul_div_round_half_to_even.1
    ⟨100, Currency.USD⟩ 2 ⟨200, Currency.USD⟩ hmul).2⟩

/-- C3 counterexample: the freshly constructed, seed-populated state violates the
pairwise-inverse invariant the claim asserts for every reachable state: USD→EUR is
seeded as 0.85 while EUR→USD is seeded as 1.18, and 1.18 ≠ 1/0.85. -/
theorem c3_counterexample :
    initRates (Currency.USD, Currency.EUR) = some (0.85 : ℚ) ∧
    initRates (Currency.EUR, Currency.USD) = some (1.18 : ℚ) ∧
    (1.18 : ℚ) ≠ 1 / (0.85 : ℚ) := by
  exact ⟨rfl, rfl, by norm_num⟩

/-- C3 (amended): the inverse relation is an update-time property, not a state
invariant: after any successful UpdateRate(A, B, r) with A ≠ B the table stores
exactly r for A→B and exactly 1/r for B→A, and after UpdateRate(USD, EUR, 0.9)
GetRate(EUR, USD) returns exactly 1/0.9; the seeded initial state itself does not
satisfy the pairwise-inverse relation (see the counterexample). -/
theorem c3_update_rederives_inverse :
    (∀ (s : RatesMap) (f t : Currency) (r : ℚ) (s' : RatesMap),
      update_rate s f t r = .ok s' → f ≠ t →
      s' (f, t) = some r ∧ s' (t, f) = some (1 / r)) ∧
    (∀ (s' : RatesMap) (n : Nat),
      update_rate initRates Currency.USD Currency.EUR (0.9 : ℚ) = .ok s' →
      get_rate (n + 1) s' Currency.EUR Currency.USD = some (.ok (1 / (0.9 : ℚ)))) := by
  constructor
  · intro s f t r s' h hft
    obtain ⟨-, hs'⟩ := update_rate_ok_inv s f t r s' h
    subst hs'
    constructor
    · simp [Prod.ext_iff, hft]
    · simp
  · intro s' n h
    obtain ⟨-, hs'⟩ := update_rate_ok_inv initRates Currency.USD Currency.EUR (0.9 : ℚ) s' h
    have hd : s' (Currency.EUR, Currency.USD) = some (1 / (0.9 : ℚ)) := by
      subst hs'
      simp
    exact get_rate_direct_hit n s' Currency.EUR Currency.USD (1 / (0.9 : ℚ))
      (by decide) hd

theorem c3_witness :
    ((fun p => if p = (Currency.EUR, Currency.USD) then some (1 / (0.9 : ℚ))
        else if p = (Currency.USD, Currency.EUR) then some (0.9 : ℚ)
        else initRates p) : RatesMap) (Currency.USD, Currency.EUR) = some (0.9 : ℚ) ∧
    ((fun p => if p = (Currency.EUR, Currency.USD) then some (1 / (0.9 : ℚ))
        else if p = (Currency.USD, Currency.EUR) then some (0.9 : ℚ)
        else initRates p) : RatesMap) (Currency.EUR, Currency.USD) =
      some (1 / (0.9 : ℚ)) :=
  c3_update_rederives_inverse.1 initRates Currency.USD Currency.EUR (0.9 : ℚ) _
    (by unfold update_rate; rw [if_neg (by norm_num : ¬(0.9 : ℚ) ≤ 0)]) (by decide)

/-- C4: on every reachable manager state, get_rate follows exactly the cascade the
claim describes (`claimRate`): 1.0 for equal currencies without a table lookup, then
the stored direct rate, then a USD-pivot product, then an EUR-pivot product, failing
with CurrencyMismatchError only when both pivots fail.  In reachable states the direct
entry always exists, so the two sides agree (the pivot clauses are never exercised). -/
theorem c4_get_rate_follows_claim_cascade (s : RatesMap) (h : ReachableRates s) :
    ∀ (f t : Currency) (n : Nat), get_rate (n + 1) s f t = some (claimRate s f t) := by
  intro f t n
  by_cases hft : f = t
  · subst hft
    rw [get_rate_self]
    unfold claimRate
    rw [if_pos rfl]
  · obtain ⟨r, hr⟩ := reachable_total s h f t hft
    rw [get_rate_direct_hit n s f t r hft hr]
    unfold claimRate
    rw [if_neg hft, hr]

theorem c4_witness :
    get_rate 1 initRates Currency.USD Currency.EUR =
      some (claimRate initRates Currency.USD Currency.EUR) :=
  c4_get_rate_follows_claim_cascade initRates ReachableRates.init Currency.USD
    Currency.EUR 0

/-- C10: in every reachable manager state all 12 ordered pairs of distinct currencies
have a direct entry (the seed provides them and update_rate only adds or overwrites),
so get_rate always resolves through the identity or direct-lookup branch — it behaves
exactly like the pivot-free `get_rate_direct` and always succeeds, and the USD/EUR
pivot fallback code is never executed. -/
theorem c10_seed_total_and_pivot_dead (s : RatesMap) (h : ReachableRates s) :
    (∀ a b : Currency, a ≠ b → ∃ r, s (a, b) = some r) ∧
    (∀ (a b : Currency) (n : Nat),
      get_rate (n + 1) s a b = some (get_rate_direct s a b)) ∧
    (∀ (a b : Currency) (n : Nat), ∃ r : ℚ, get_rate (n + 1) s a b = some (.ok r)) := by
  refine ⟨reachable_total s h, ?_, ?_⟩
  · intro a b n
    by_cases hab : a = b
    · subst hab
      rw [get_rate_self]
      unfold get_rate_direct
      rw [if_pos rfl]
    · obtain ⟨r, hr⟩ := reachable_total s h a b hab
      rw [get_rate_direct_hit n s a b r hab hr]
      unfold get_rate_direct
      rw [if_neg hab, hr]
  · intro a b n
    by_cases hab : a = b
    · exact ⟨1, by subst hab; rw [get_rate_self]⟩
    · obtain ⟨r, hr⟩ := reachable_total s h a b hab
      exact ⟨r, get_rate_direct_hit n s a b r hab hr⟩

theorem c10_witness :
    get_rate 1 initRates Currency.GBP Currency.JPY =
      some (get_rate_direct initRates Currency.GBP Currency.JPY) :=
  (c10_seed_total_and_pivot_dead initRates ReachableRates.init).2.1 Currency.GBP
    Currency.JPY 0

/-- C5: convert returns its argument unchanged when the currency already matches;
otherwise it resolves a rate through get_historical_rate (date given) or get_rate (no
date), re-raises any resolution failure as CurrencyMismatchError, and on success
builds the result through Money's construction path from amount() * rate; with the
seed table, converting Money(100, USD) to EUR yields Money(85.00, EUR), i.e. 8500
minor units. -/
theorem c5_convert_spec :
    (∀ (fuel : Nat) (s : MgrState) (m : Money) (t : Currency) (d : Option Nat),
      m.currency = t → convert fuel s m t d = some (.ok m)) ∧
    (∀ (fuel : Nat) (s : MgrState) (m : Money) (t : Currency) (dd : Nat) (e : PyErr),
      m.currency ≠ t → get_historical_rate s.hist m.currency t dd = .error e →
      convert fuel s m t (some dd) = some (.error .currencyMismatch)) ∧
    (∀ (fuel : Nat) (s : MgrState) (m : Money) (t : Currency) (dd : Nat) (r : ℚ),
      m.currency ≠ t → get_historical_rate s.hist m.currency t dd = .ok r →
      convert fuel s m t (some dd) = some (Money.mk' (m.amount * r) t)) ∧
    (∀ (fuel : Nat) (s : MgrState) (m : Money) (t : Currency) (r : ℚ),
      m.currency ≠ t → get_rate fuel s.rates m.currency t = some (.ok r) →
      convert fuel s m t none = some (Money.mk' (m.amount * r) t)) ∧
    (∀ (fuel : Nat) (s : MgrState) (m : Money) (t : Currency) (e : PyErr),
      m.currency ≠ t → get_rate fuel s.rates m.currency t = some (.error e) →
      e.isValueErrorClass = true →
      convert fuel s m t none = some (.error .currencyMismatch)) ∧
    (∀ n : Nat, convert (n + 1) initState ⟨10000, Currency.USD⟩ Currency.EUR none =
      some (.ok ⟨8500, Currency.EUR⟩)) := by
  have hsame : ∀ (fuel : Nat) (s : MgrState) (m : Money) (t : Currency) (d : Option Nat),
      m.currency = t → convert fuel s m t d = some (.ok m) := by
    intro fuel s m t d hc
    unfold convert
    rw [if_pos hc]
  have hhe : ∀ (fuel : Nat) (s : MgrState) (m : Money) (t : Currency) (dd : Nat)
      (e : PyErr), m.currency ≠ t → get_historical_rate s.hist m.currency t dd = .error e →
      convert fuel s m t (some dd) = some (.error .currencyMismatch) := by
    intro fuel s m t dd e hct hh
    unfold convert
    rw [if_neg hct]
    dsimp only
    rw [hh]
    dsimp only
    rw [if_pos (by rw [hist_err_class s.hist m.currency t dd e hh])]
  have hho : ∀ (fuel : Nat) (s : MgrState) (m : Money) (t : Currency) (dd : Nat)
      (r : ℚ), m.currency ≠ t → get_historical_rate s.hist m.currency t dd = .ok r →
      convert fuel s m t (some dd) = some (Money.mk' (m.amount * r) t) := by
    intro fuel s m t dd r hct hh
    unfold convert
    rw [if_neg hct]
    dsimp only
    rw [hh]
  have hlo : ∀ (fuel : Nat) (s : MgrState) (m : Money) (t : Currency) (r : ℚ),
      m.currency ≠ t → get_rate fuel s.rates m.currency t = some (.ok r) →
      convert fuel s m t none = some (Money.mk' (m.amount * r) t) := by
    intro fuel s m t r hct hg
    unfold convert
    rw [if_neg hct]
    dsimp only
    rw [hg]
  have hle : ∀ (fuel : Nat) (s : MgrState) (m : Money) (t : Currency) (e : PyErr),
      m.currency ≠ t → get_rate fuel s.rates m.currency t = some (.error e) →
      e.isValueErrorClass = true →
      convert fuel s m t none = some (.error .currencyMismatch) := by
    intro fuel s m t e hct hg hcl
    unfold convert
    rw [if_neg hct]
    dsimp only
    rw [hg]
    dsimp only
    rw [if_pos (by rw [hcl])]
  refine ⟨hsame, hhe, hho, hlo, hle, ?_⟩
  intro n
  rw [hlo (n + 1) initState ⟨10000, Currency.USD⟩ Currency.EUR (0.85 : ℚ) (by decide)
    (get_rate_direct_hit n initRates Currency.USD Currency.EUR (0.85 : ℚ)
      (by decide) rfl)]
  rw [mk'_eval (Money.amount ⟨10000, Currency.USD⟩ * (0.85 : ℚ)) 8500
    (by norm_num [Money.amount]) (by decide) (by decide) Currency.EUR]

theorem c5_witness :
    convert 1 initState ⟨100, Currency.USD⟩ Currency.USD none =
      some (.ok ⟨100, Currency.USD⟩) :=
  c5_convert_spec.1 1 initState ⟨100, Currency.USD⟩ Currency.USD none rfl

/-- C8 counterexample: Money defines no value equality, so Python's `==` is object
identity; the subtraction result of (m + n) - n is a freshly allocated object and
compares unequal to m even though its currency and minor units agree (here
m = Money(1, USD), n = Money(2, USD)). -/
theorem c8_counterexample :
    constructObj 0 (1 : ℚ) Currency.USD = .ok (⟨0, ⟨100, Currency.USD⟩⟩, 1) ∧
    constructObj 1 (2 : ℚ) Currency.USD = .ok (⟨1, ⟨200, Currency.USD⟩⟩, 2) ∧
    addObj 2 ⟨0, ⟨100, Currency.USD⟩⟩ ⟨1, ⟨200, Currency.USD⟩⟩ =
      .ok (⟨2, ⟨300, Currency.USD⟩⟩, 3) ∧
    subObj 3 ⟨2, ⟨300, Currency.USD⟩⟩ ⟨1, ⟨200, Currency.USD⟩⟩ =
      .ok (⟨3, ⟨100, Currency.USD⟩⟩, 4) ∧
    pyEq ⟨3, ⟨100, Currency.USD⟩⟩ ⟨0, ⟨100, Currency.USD⟩⟩ = false ∧
    (⟨3, ⟨100, Currency.USD⟩⟩ : MoneyObj).val = (⟨0, ⟨100, Currency.USD⟩⟩ : MoneyObj).val := by
  refine ⟨constructObj_eval 0 1 100 Currency.USD (by norm_num) (by decide) (by decide),
    constructObj_eval 1 2 200 Currency.USD (by norm_num) (by decide) (by decide),
    ?_, ?_, rfl, rfl⟩
  · unfold addObj
    dsimp only
    rw [add_eval ⟨100, Currency.USD⟩ ⟨200, Currency.USD⟩ rfl (by decide) (by decide)]
    rfl
  · unfold subObj
    dsimp only
    rw [sub_eval ⟨300, Currency.USD⟩ ⟨200, Currency.USD⟩ rfl (by decide) (by decide)]
    rfl

/-- C8 (amended): the round-trip holds at the level of monetary values: whenever both
operations succeed, ((m + n) - n) has exactly the minor-unit count and currency of m —
but the two sides are distinct objects, so Python's `==` (identity, Money defines no
`__eq__`) does not relate them. -/
theorem c8_value_level_roundtrip (m n s t : Money) (_hc : m.currency = n.currency)
    (hadd : Money.add m n = .ok s) (hsub : Money.sub s n = .ok t) :
    t.minorUnits = m.minorUnits ∧ t.currency = m.currency := by
  obtain ⟨ha1, ha2⟩ := add_ok_inv m n s hadd
  obtain ⟨hs1, hs2⟩ := sub_ok_inv s n t hsub
  constructor
  · rw [hs1, ha1]
    ring
  · rw [hs2, ha2]

theorem c8_witness :
    Money.add ⟨2500, Currency.GBP⟩ ⟨700, Currency.GBP⟩ = .ok ⟨3200, Currency.GBP⟩ ∧
    Money.sub ⟨3200, Currency.GBP⟩ ⟨700, Currency.GBP⟩ = .ok ⟨2500, Currency.GBP⟩ ∧
    (⟨2500, Currency.GBP⟩ : Money).minorUnits =
      (⟨2500, Currency.GBP⟩ : Money).minorUnits ∧
    (⟨2500, Currency.GBP⟩ : Money).currency = (⟨2500, Currency.GBP⟩ : Money).currency := by
  have h1 : Money.add ⟨2500, Currency.GBP⟩ ⟨700, Currency.GBP⟩ =
      .ok ⟨3200, Currency.GBP⟩ := by
    rw [add_eval ⟨2500, Currency.GBP⟩ ⟨700, Currency.GBP⟩ rfl (by decide) (by decide)]
    rfl
  have h2 : Money.sub ⟨3200, Currency.GBP⟩ ⟨700, Currency.GBP⟩ =
      .ok ⟨2500, Currency.GBP⟩ := by
    rw [sub_eval ⟨3200, Currency.GBP⟩ ⟨700, Currency.GBP⟩ rfl (by decide) (by decide)]
    rfl
  exact ⟨h1, h2, c8_value_level_roundtrip ⟨2500, Currency.GBP⟩ ⟨700, Currency.GBP⟩
    ⟨3200, Currency.GBP⟩ ⟨2500, Currency.GBP⟩ rfl h1 h2⟩

/-- C9 counterexample: two independently constructed Money objects with equal currency
and equal minor-unit counts do not compare equal under Python's `==`, because Money
defines no `__eq__` and `object.__eq__` is identity. -/
theorem c9_counterexample :
    constructObj 0 (1 : ℚ) Currency.USD = .ok (⟨0, ⟨100, Currency.USD⟩⟩, 1) ∧
    constructObj 1 (1 : ℚ) Currency.USD = .ok (⟨1, ⟨100, Currency.USD⟩⟩, 2) ∧
    (⟨0, ⟨100, Currency.USD⟩⟩ : MoneyObj).val = (⟨1, ⟨100, Currency.USD⟩⟩ : MoneyObj).val ∧
    pyEq ⟨0, ⟨100, Currency.USD⟩⟩ ⟨1, ⟨100, Currency.USD⟩⟩ = false :=
  ⟨constructObj_eval 0 1 100 Currency.USD (by norm_num) (by decide) (by decide),
    constructObj_eval 1 1 100 Currency.USD (by norm_num) (by decide) (by decide),
    rfl, rfl⟩

/-- C9 (amended): Money equality is object identity, not a value-level relation: `==`
holds exactly when the two operands are the same object (same id), every object equals
itself, and two sequentially constructed Money objects — whatever their amounts and
currencies — never compare equal. -/
theorem c9_equality_is_object_identity :
    (∀ a b : MoneyObj, pyEq a b = true ↔ a.oid = b.oid) ∧
    (∀ a : MoneyObj, pyEq a a = true) ∧
    (∀ (k : Nat) (a1 a2 : ℚ) (c1 c2 : Currency) (o1 o2 : MoneyObj) (k1 k2 : Nat),
      constructObj k a1 c1 = .ok (o1, k1) → constructObj k1 a2 c2 = .ok (o2, k2) →
      pyEq o1 o2 = false) := by
  refine ⟨?_, ?_, ?_⟩
  · intro a b
    simp [pyEq]
  · intro a
    simp [pyEq]
  · intro k a1 a2 c1 c2 o1 o2 k1 k2 h1 h2
    obtain ⟨ho1, hk1⟩ := constructObj_ok k a1 c1 o1 k1 h1
    obtain ⟨ho2, hk2⟩ := constructObj_ok k1 a2 c2 o2 k2 h2
    simp only [pyEq, ho1, ho2, hk1, beq_eq_false_iff_ne, ne_eq]
    omega

theorem c9_witness :
    pyEq ⟨0, ⟨100, Currency.USD⟩⟩ ⟨1, ⟨100, Currency.USD⟩⟩ = false :=
  c9_equality_is_object_identity.2.2 0 1 1 Currency.USD Currency.USD
    ⟨0, ⟨100, Currency.USD⟩⟩ ⟨1, ⟨100, Currency.USD⟩⟩ 1 2
    (constructObj_eval 0 1 100 Currency.USD (by norm_num) (by decide) (by decide))
    (constructObj_eval 1 1 100 Currency.USD (by norm_num) (by decide) (by decide))

end Centinel
